import Mathlib

/-!
Verification of the func-help effect-container library.

The development shallowly embeds the library's containers:

* `FuncHelp.Either`   — `src/src/monads/Either.ts` (tagged two-branch sum).
* `FuncHelp.Except`   — `src/src/monads/Except.ts`.  The TypeScript class
  stores one untagged field `value : Error | A` and decides the branch with
  an `instanceof Error` test at every operation, so the embedding stores a
  single runtime value (`JSVal`) with no constructor-time tag.
* `FuncHelp.State`    — `src/src/monads/State.ts` (pure `S -> [A, S]`).
* `FuncHelp.StateT`   — `src/src/monads/State.ts` StateT, instantiated at the
  underlying container `Either L` (the branching instantiation the claims use).
* `FuncHelp.IOEff`    — the IO class (deferred synchronous thunk).  Side
  effects of the wrapped computation are made observable by threading an
  explicit world of type `σ`: the TypeScript thunk `() => A` becomes
  `σ → A × σ`.
* `FuncHelp.AsyncIOEff` — the AsyncIO class (`src/src/monads/AsyncIO.ts`):
  a world-threaded thunk whose result is the value the returned promise
  resolves to, with `.then` chaining as composition in resolution order.
* `FuncHelp.Do`       — `src/src/utils/Do.ts`, the generator-driven
  sequencing interpreter, generic over a container dictionary.

JavaScript runtime values that matter to the claims (`Error` instances versus
everything else) are modelled by the small universe `JSVal`.
-/

namespace FuncHelp

/-- A small universe of JavaScript runtime values: `error m` models an
instance of the host `Error` type with message `m`; the remaining
constructors model non-`Error` values (numbers, strings, `undefined`). -/
inductive JSVal where
  | error (msg : String)
  | num (n : Int)
  | str (s : String)
  | undef
  deriving DecidableEq

/-- The JavaScript test `value instanceof Error` on a `JSVal`. -/
def instanceOfError : JSVal → Bool
  | .error _ => true
  | _ => false

/-- `Either<L, R>` from `src/src/monads/Either.ts`: a tagged union of a
`left` branch (failure) and a `right` branch (success); the constructor
records the tag, and every operation dispatches on it. -/
inductive Either (L R : Type) where
  | left (value : L)
  | right (value : R)
  deriving DecidableEq

namespace Either

/-- `Either.of` (Pure): constructs a `right`. -/
def of {L R : Type} (value : R) : Either L R := right value

/-- `Either.isRight`. -/
def isRight {L R : Type} : Either L R → Bool
  | .right _ => true
  | .left _ => false

/-- `Either.isLeft`. -/
def isLeft {L R : Type} : Either L R → Bool
  | .left _ => true
  | .right _ => false

/-- `Either.map`: applies `f` to the `right` value; a `left` is returned
unchanged (`this as unknown as Either<L, B>` in the source). -/
def map {L R B : Type} (e : Either L R) (f : R → B) : Either L B :=
  match e with
  | .right r => right (f r)
  | .left l => left l

/-- `Either.flatMap`: applies `f` to the `right` value; a `left` is
returned unchanged. -/
def flatMap {L R B : Type} (e : Either L R) (f : R → Either L B) : Either L B :=
  match e with
  | .right r => f r
  | .left l => left l

/-- `Either.fold`: eliminates by dispatching on the branch. -/
def fold {L R B : Type} (e : Either L R) (onLeft : L → B) (onRight : R → B) : B :=
  match e with
  | .right r => onRight r
  | .left l => onLeft l

/-- `Either.getOrElse`: the `right` value, or `fallback` of the `left` value. -/
def getOrElse {L R : Type} (e : Either L R) (fallback : L → R) : R :=
  match e with
  | .right r => r
  | .left l => fallback l

/-- `Either.swap`: exchanges the branches. -/
def swap {L R : Type} (e : Either L R) : Either R L :=
  match e with
  | .right r => left r
  | .left l => right l

/-- `Either.tryCatch` over `JSVal` payloads.  The wrapped effect either
raises a fault (`Sum.inl e`, modelling a `throw`) or returns normally
(`Sum.inr r`); the source wraps the call in `try`/`catch`, returning
`right(effect())` on normal return and `left(onError ? onError(e) : e)`
on a caught fault. -/
def tryCatch (effect : JSVal ⊕ JSVal) (onError : Option (JSVal → JSVal)) :
    Either JSVal JSVal :=
  match effect with
  | .inr r => right r
  | .inl e =>
    match onError with
    | some h => left (h e)
    | none => left e

end Either

/-- `Except<A>` from `src/src/monads/Except.ts`: the class stores the single
private field `value : Error | A` and nothing else — there is no tag.  The
branch is recomputed by `value instanceof Error` inside every operation. -/
structure Except where
  value : JSVal
  deriving DecidableEq

namespace Except

/-- `Except.failed`: wraps the given (`Error`-typed) value; stores it untagged. -/
def failed (error : JSVal) : Except := ⟨error⟩

/-- `Except.ok`: wraps the given value; stores it untagged. -/
def ok (value : JSVal) : Except := ⟨value⟩

/-- `Except.of` (Pure): defined as `Except.ok`. -/
def of (value : JSVal) : Except := ok value

/-- `Except.isError`: `this.value instanceof Error`. -/
def isError (e : Except) : Bool := instanceOfError e.value

/-- `Except.isOk`: `!(this.value instanceof Error)`. -/
def isOk (e : Except) : Bool := !instanceOfError e.value

/-- `Except.map`: if the stored value is an `Error` instance, returns the
container unchanged; otherwise wraps `f value` with `ok`. -/
def map (e : Except) (f : JSVal → JSVal) : Except :=
  if instanceOfError e.value then e else ok (f e.value)

/-- `Except.flatMap`: if the stored value is an `Error` instance, returns
the container unchanged; otherwise returns `f value`. -/
def flatMap (e : Except) (f : JSVal → Except) : Except :=
  if instanceOfError e.value then e else f e.value

/-- `Except.fold`: dispatches on `value instanceof Error`. -/
def fold {B : Type} (e : Except) (onError : JSVal → B) (onSuccess : JSVal → B) : B :=
  if instanceOfError e.value then onError e.value else onSuccess e.value

/-- `Except.getOrElse`. -/
def getOrElse (e : Except) (fallback : JSVal → JSVal) : JSVal :=
  if instanceOfError e.value then fallback e.value else e.value

/-- `Except.tryCatch`: `ok(effect())` on normal return; on a caught fault
`e`, `failed(onError ? onError(e) : (e as Error))` — the cast is erased at
runtime, so the raw fault is stored as-is when no handler is supplied. -/
def tryCatch (effect : JSVal ⊕ JSVal) (onError : Option (JSVal → JSVal)) : Except :=
  match effect with
  | .inr r => ok r
  | .inl e =>
    match onError with
    | some h => failed (h e)
    | none => failed e

end Except

/-- `State<S, A>` from `src/src/monads/State.ts`: wraps one pure function
`runState : S -> StatePair<S, A>` where `StatePair<S, A> = [A, S]`
(value first, state second). -/
structure State (S A : Type) where
  runState : S → A × S

namespace State

/-- `State.return` / `State.of` (Pure): leaves the state unchanged and
sets the result: `new State((s) => [value, s])`. -/
def of {S A : Type} (value : A) : State S A := ⟨fun s => (value, s)⟩

/-- `State.map`: runs the transition, applies `f` to the value, threads
the state unchanged through `f`. -/
def map {S A B : Type} (m : State S A) (f : A → B) : State S B :=
  ⟨fun s0 =>
    let p := m.runState s0
    (f p.1, p.2)⟩

/-- `State.flatMap`: runs the transition to `[a, s1]`, then runs
`f(a)`'s transition from `s1`. -/
def flatMap {S A B : Type} (m : State S A) (f : A → State S B) : State S B :=
  ⟨fun s0 =>
    let p := m.runState s0
    (f p.1).runState p.2⟩

/-- `State.run`: executes against a starting state, returning the pair. -/
def run {S A : Type} (m : State S A) (initial : S) : A × S := m.runState initial

/-- `State.eval`: `run` keeping the result only. -/
def eval {S A : Type} (m : State S A) (initial : S) : A := (m.runState initial).1

/-- `State.exec`: `run` keeping the final state only. -/
def exec {S A : Type} (m : State S A) (initial : S) : S := (m.runState initial).2

/-- `State.get`: `new State((s) => [s, s])`. -/
def get {S : Type} : State S S := ⟨fun s => (s, s)⟩

/-- `State.put`: `new State(() => [undefined, newState])` — `undefined`
is modelled by `Unit`. -/
def put {S : Type} (newState : S) : State S Unit := ⟨fun _ => ((), newState)⟩

/-- `State.modify`: `new State((s) => [undefined, f(s)])`. -/
def modify {S : Type} (f : S → S) : State S Unit := ⟨fun s => ((), f s)⟩

/-- `State.gets`: `new State((s) => [f(s), s])`. -/
def gets {S A : Type} (f : S → A) : State S A := ⟨fun s => (f s, s)⟩

end State

/-- `StateT<S, A>` from `src/src/monads/State.ts`, instantiated at the
underlying container `M = Either L` (the branching instantiation used by
the claims): wraps `runStateT : S -> M<StatePair<S, A>>` together with the
captured `Mof = Either.of`.  `Mof` is definitionally fixed here, so only
`runStateT` remains as data; every combinator below follows the source
with `Mof([x, s])` rendered as `Either.of (x, s)` and `M.map`/`M.flatMap`
rendered as `Either.map`/`Either.flatMap`. -/
structure StateT (S L A : Type) where
  runStateT : S → Either L (A × S)

namespace StateT

/-- `StateT.of` (Pure): `new StateT((s) => Mof([value, s]), Mof)`. -/
def of {S L A : Type} (value : A) : StateT S L A :=
  ⟨fun s => Either.of (value, s)⟩

/-- `StateT.lift`: `new StateT((s) => ma.map((a) => [a, s]), Mof)`. -/
def lift {S L A : Type} (ma : Either L A) : StateT S L A :=
  ⟨fun s => ma.map (fun a => (a, s))⟩

/-- `StateT.map`: maps over the underlying container's pair. -/
def map {S L A B : Type} (m : StateT S L A) (f : A → B) : StateT S L B :=
  ⟨fun s => (m.runStateT s).map (fun p => (f p.1, p.2))⟩

/-- `StateT.flatMap`: runs the transition to `M<[a, s1]>`, then uses the
underlying container's own `flatMap` to continue with `f(a)` from `s1`:
`(s0) => this.runStateT(s0).flatMap(([a, s1]) => f(a).runStateT(s1))`. -/
def flatMap {S L A B : Type} (m : StateT S L A) (f : A → StateT S L B) :
    StateT S L B :=
  ⟨fun s0 => (m.runStateT s0).flatMap (fun p => (f p.1).runStateT p.2)⟩

/-- `StateT.get`. -/
def get {S L : Type} : StateT S L S := ⟨fun s => Either.of (s, s)⟩

/-- `StateT.put`. -/
def put {S L : Type} (newState : S) : StateT S L Unit :=
  ⟨fun _ => Either.of ((), newState)⟩

/-- `StateT.modify`. -/
def modify {S L : Type} (f : S → S) : StateT S L Unit :=
  ⟨fun s => Either.of ((), f s)⟩

/-- `StateT.gets`. -/
def gets {S L A : Type} (f : S → A) : StateT S L A :=
  ⟨fun s => Either.of (f s, s)⟩

/-- `StateT.run`: the underlying container holding value and final state. -/
def run {S L A : Type} (m : StateT S L A) (initial : S) : Either L (A × S) :=
  m.runStateT initial

/-- `StateT.eval`: keep only the value, within the underlying container. -/
def eval {S L A : Type} (m : StateT S L A) (initial : S) : Either L A :=
  (m.runStateT initial).map (·.1)

/-- `StateT.exec`: keep only the final state, within the underlying container. -/
def exec {S L A : Type} (m : StateT S L A) (initial : S) : Either L S :=
  (m.runStateT initial).map (·.2)

end StateT

/-- The `IO<A>` class (deferred synchronous effect container): wraps one
zero-argument side-effecting thunk `effect : () => A`.  To make side
effects observable in a pure embedding, the host world is threaded
explicitly: a thunk becomes `σ → A × σ` for a world type `σ`, and each
application of `effect` is one execution of the wrapped computation. -/
structure IOEff (σ A : Type) where
  effect : σ → A × σ

namespace IOEff

/-- `IO.of` (Pure): `new IO(() => value)` — a thunk that touches no world. -/
def of {σ A : Type} (value : A) : IOEff σ A := ⟨fun w => (value, w)⟩

/-- `IO.from`: wraps an arbitrary thunk; construction does not apply it. -/
def fromEffect {σ A : Type} (t : σ → A × σ) : IOEff σ A := ⟨t⟩

/-- `IO.run`: `this.effect()` — one application of the wrapped thunk. -/
def run {σ A : Type} (m : IOEff σ A) (w : σ) : A × σ := m.effect w

/-- `IO.map`: `new IO(() => f(this.effect()))`. -/
def map {σ A B : Type} (m : IOEff σ A) (f : A → B) : IOEff σ B :=
  ⟨fun w =>
    let p := m.effect w
    (f p.1, p.2)⟩

/-- `IO.flatMap`: `new IO(() => f(this.effect()).run())`. -/
def flatMap {σ A B : Type} (m : IOEff σ A) (f : A → IOEff σ B) : IOEff σ B :=
  ⟨fun w =>
    let p := m.effect w
    (f p.1).run p.2⟩

/-- `IO.tap`: runs the thunk, feeds the value to an observer (itself a
world action), and returns the original value. -/
def tap {σ A : Type} (m : IOEff σ A) (observer : A → σ → σ) : IOEff σ A :=
  ⟨fun w =>
    let p := m.effect w
    (p.1, observer p.1 p.2)⟩

/-- `run` iterated `k` times on the same IO value, threading the world;
returns the final world (`k = 0` corresponds to constructing without
running). -/
def runTimes {σ A : Type} (m : IOEff σ A) : Nat → σ → σ
  | 0, w => w
  | k + 1, w => runTimes m k (m.run w).2

end IOEff

/-- A counting thunk over the world `Nat`: each execution increments the
counter (its observable side effect) and returns the pre-increment count. -/
def tick : Nat → Nat × Nat := fun n => (n, n + 1)

/-- `AsyncIO<A>` from `src/src/monads/AsyncIO.ts`: wraps one thunk
`effect : () => Promise<A>`.  A promise is single-resolution and
then-composable, so the embedding threads the world through the thunk and
carries the promise's eventual value directly: `effect w` is the pair of
the value the returned promise resolves to and the world after the effects
performed up to that resolution.  `.then(f)` chaining is composition in
resolution order. -/
structure AsyncIOEff (σ A : Type) where
  effect : σ → A × σ

namespace AsyncIOEff

/-- `AsyncIO.of` (Pure): `new AsyncIO(() => Promise.resolve(value))` — a
thunk whose promise resolves immediately to `value` with no effect. -/
def of {σ A : Type} (value : A) : AsyncIOEff σ A := ⟨fun w => (value, w)⟩

/-- `AsyncIO.from`: wraps an arbitrary promise-returning thunk;
construction does not apply it. -/
def fromEffect {σ A : Type} (t : σ → A × σ) : AsyncIOEff σ A := ⟨t⟩

/-- `AsyncIO.run`: `this.effect()` — one application of the wrapped thunk,
yielding the promise's resolution. -/
def run {σ A : Type} (m : AsyncIOEff σ A) (w : σ) : A × σ := m.effect w

/-- `AsyncIO.map`: `new AsyncIO(() => this.effect().then(f))`. -/
def map {σ A B : Type} (m : AsyncIOEff σ A) (f : A → B) : AsyncIOEff σ B :=
  ⟨fun w =>
    let p := m.effect w
    (f p.1, p.2)⟩

/-- `AsyncIO.flatMap`:
`new AsyncIO(() => this.effect().then((a) => f(a).run()))` — the second
computation starts only after the first promise's resolution. -/
def flatMap {σ A B : Type} (m : AsyncIOEff σ A) (f : A → AsyncIOEff σ B) :
    AsyncIOEff σ B :=
  ⟨fun w =>
    let p := m.effect w
    (f p.1).run p.2⟩

end AsyncIOEff

/-- The `Monad<T>` capability contract (`src/src/types.ts`) together with
the `of` constructor that `Do.run` receives up front, as a dictionary over
an arbitrary container shape `M`. -/
structure MonadDict (M : Type → Type) where
  of : {A : Type} → A → M A
  flatMap : {A B : Type} → M A → (A → M B) → M B

/-- A generator (`Generator<Monad<any>, A, any>`) as consumed by `Do.run`,
with yielded-container payload type `V`: either the generator has returned
(`done r`), or it is suspended at a `yield` of the container value `m`,
resuming with the received payload through `k`. -/
inductive GenT (M : Type → Type) (V A : Type) where
  | done (r : A)
  | yield (m : M V) (k : V → GenT M V A)

namespace Do

/-- `Do.run` / its inner `step` (`src/src/utils/Do.ts`): if the generator
is done, lift the returned value with `of`; otherwise `flatMap` the yielded
container with a continuation that resumes the generator with the received
payload and repeats. -/
def run {M : Type → Type} (d : MonadDict M) {V A : Type} : GenT M V A → M A
  | .done r => d.of r
  | .yield m k => d.flatMap m (fun v => run d (k v))

end Do

/-- The dictionary instance for the `Either L` family:
`of = Either.of`, `flatMap = Either.flatMap`. -/
def eitherDict (L : Type) : MonadDict (Either L) :=
  ⟨fun v => Either.of v, fun m f => m.flatMap f⟩

/-!
Machinery for the shared-iterator behaviour of `Do.run` over IO.

`Do.run(of, gen)` calls `gen()` once, obtaining a single mutable iterator,
and calls `iterator.next(...)` from inside the continuations it passes to
`flatMap`.  For the IO family those continuations execute at `run()` time,
so the iterator's mutable cursor is part of the world threaded through
`run` — and it is shared by every `run()` call on the composed IO value.

The concrete producer modelled below is the documented example of
`src/src/utils/Do.ts`:

  const a = yield IO.of(1); const b = yield IO.of(2); return a + b;

JS values flowing through it are `number | undefined`, modelled as
`Option Nat` (`none` = `undefined`).
-/

/-- The iterator cursor of the concrete generator: suspended at start
(`p0`), suspended at the first yield (`p1`), suspended at the second yield
with `a` bound (`p2 a`), or exhausted (`pdone`). -/
inductive ItPos where
  | p0
  | p1
  | p2 (a : Nat)
  | pdone
  deriving DecidableEq

/-- An `IteratorResult<Monad<any>, A>`: the generator either returned
(`done v`; `v = none` models the `undefined` value of a `next()` call on
an exhausted iterator) or yielded an IO container (`yielded m`). -/
inductive IterRes where
  | done (v : Option Nat)
  | yielded (m : IOEff ItPos (Option Nat))

/-- `iterator.next(fed)` for the concrete generator: advances the cursor
and reports the next suspension.  At `p0` it runs to the first yield
(`IO.of(1)`); at `p1` it binds `a` to the fed value and runs to the second
yield (`IO.of(2)`); at `p2 a` it computes `a + b` and finishes; on an
exhausted iterator it reports `done undefined` without re-running anything. -/
def itNext : ItPos → Option Nat → IterRes × ItPos
  | .p0, _ => (.yielded (IOEff.of (some 1)), .p1)
  | .p1, v => (.yielded (IOEff.of (some 2)), .p2 (v.getD 0))
  | .p2 a, v => (.done (some (a + v.getD 0)), .pdone)
  | .pdone, _ => (.done none, .pdone)

/-- `IO.flatMap` for a continuation that itself performs world effects
when invoked (the continuation `Do.run` supplies calls `iterator.next`):
the source thunk `() => f(this.effect()).run()` evaluates `this.effect()`,
then invokes `f` (advancing the iterator), then runs the produced IO. -/
def IOEff.flatMapK {σ A B : Type} (m : IOEff σ A) (f : A → σ → IOEff σ B × σ) :
    IOEff σ B :=
  ⟨fun w =>
    let p := m.effect w
    let q := f p.1 p.2
    q.1.run q.2⟩

/-- The `step` function of `Do.run` specialised to the IO family over the
concrete generator: `done` lifts with `of`; a yielded IO is `flatMap`-ed
with the continuation `(val) => step(iterator.next(val))`.  The recursion
through the dynamic iterator is bounded by explicit fuel; the fuel used
below exceeds the generator's depth, so the exhaustion branch is never
reached in the theorems. -/
def stepFuel : Nat → IterRes → IOEff ItPos (Option Nat)
  | _, .done v => IOEff.of v
  | 0, .yielded _ => IOEff.of none
  | fuel + 1, .yielded m =>
    m.flatMapK (fun v w =>
      let r := itNext w v
      (stepFuel fuel r.1, r.2))

/-- `Do.run(IO.of, gen)` for the concrete generator: creates the iterator
(cursor `p0`), eagerly calls `iterator.next()` once, and builds the
composed IO with `step`.  Returns the composed IO together with the
iterator cursor as it stands after composition — the mutable state shared
by all subsequent `run()` calls. -/
def doRunShared : IOEff ItPos (Option Nat) × ItPos :=
  let r := itNext .p0 none
  (stepFuel 4 r.1, r.2)

end FuncHelp

/-- Claim C5: for every container family (every dictionary `d`) and every
generator that yields zero container values and returns `r`, `Do.run`
collapses to a single lift: `Do.run d (done r) = d.of r`. -/
theorem C5_do_zero_yields_is_lift {M : Type → Type} (d : FuncHelp.MonadDict M)
    {V A : Type} (r : A) :
    FuncHelp.Do.run d (FuncHelp.GenT.done (M := M) (V := V) r) = d.of r := by
  simp [FuncHelp.Do.run]

/-- Claim C4: for `Do.run` over the branching family `Either`, a generator
whose first yielded container is the failure `left e` composes to that
failure container itself: `Do.run (eitherDict L) (yield (left e) k) = left e`
for every continuation `k`.  The continuation — the rest of the generator,
holding every later step — is universally quantified and absent from the
right-hand side: the producer is never resumed past the failing yield and
no later step is driven. -/
theorem C4_do_first_yield_failure_short_circuits {L V A : Type} (e : L)
    (k : V → FuncHelp.GenT (FuncHelp.Either L) V A) :
    FuncHelp.Do.run (FuncHelp.eitherDict L) (FuncHelp.GenT.yield (FuncHelp.Either.left e) k) =
      FuncHelp.Either.left e := by
  simp [FuncHelp.Do.run, FuncHelp.eitherDict, FuncHelp.Either.flatMap]

/-- Claim C6: with the wrapped computation instrumented to count its own
executions (`tick` increments the world counter once per execution),
constructing an IO via `of`, `from`, `map`, or `flatMap` executes the
wrapped computation zero times — running the constructed value zero times
leaves the counter at `c`, and `of` leaves the counter unchanged even when
run — while each `run()` call executes it exactly once: one `run` ends at
`c + 1`, and a second `run` on the same value re-executes, ending at
`c + 2`; the `map`/`flatMap`-composed values likewise execute the thunk
exactly once per `run`. -/
theorem C6_io_run_executes_effect (c : Nat) (v : Nat) (f : Nat → Nat) :
    FuncHelp.IOEff.runTimes (FuncHelp.IOEff.fromEffect FuncHelp.tick) 0 c = c ∧
    FuncHelp.IOEff.runTimes ((FuncHelp.IOEff.fromEffect FuncHelp.tick).map f) 0 c = c ∧
    FuncHelp.IOEff.runTimes
      ((FuncHelp.IOEff.fromEffect FuncHelp.tick).flatMap
        (fun a => FuncHelp.IOEff.of (f a))) 0 c = c ∧
    ((FuncHelp.IOEff.of (σ := Nat) v).run c) = (v, c) ∧
    ((FuncHelp.IOEff.fromEffect FuncHelp.tick).run c).2 = c + 1 ∧
    FuncHelp.IOEff.runTimes (FuncHelp.IOEff.fromEffect FuncHelp.tick) 2 c = c + 2 ∧
    (((FuncHelp.IOEff.fromEffect FuncHelp.tick).map f).run c).2 = c + 1 ∧
    FuncHelp.IOEff.runTimes ((FuncHelp.IOEff.fromEffect FuncHelp.tick).map f) 2 c = c + 2 ∧
    (((FuncHelp.IOEff.fromEffect FuncHelp.tick).flatMap
        (fun a => FuncHelp.IOEff.of (f a))).run c).2 = c + 1 :=
  ⟨rfl, rfl, rfl, rfl, rfl, rfl, rfl, rfl, rfl⟩

/-- Claim C8: for every initial state `s0`, the computation
`State.get().flatMap(s => State.put(s))` leaves the state unchanged:
`exec s0 = s0`, and `run s0` is the pair `[undefined, s0]`
(`undefined` modelled as `Unit.unit`). -/
theorem C8_get_put_identity {S : Type} (s0 : S) :
    (FuncHelp.State.get.flatMap (fun s => FuncHelp.State.put s)).exec s0 = s0 ∧
    (FuncHelp.State.get.flatMap (fun s => FuncHelp.State.put s)).run s0 = ((), s0) :=
  ⟨rfl, rfl⟩

/-- Claim C3: for StateT over the branching container Either, if the
underlying value of step `m` at state `s0` resolves to the failure branch
`left e`, then the chained computation returns that failure unchanged:
`(m.flatMap f).run s0 = left e` for every continuation `f`, and likewise
for every longer chain `(m.flatMap f).flatMap g`.  The continuations `f`
and `g` are universally quantified and absent from the right-hand sides —
the pure rendering of "the state-transition body of step N+1 and every
later step is never executed". -/
theorem C3_stateT_failure_forwarding {S L A B C : Type}
    (m : FuncHelp.StateT S L A) (f : A → FuncHelp.StateT S L B)
    (g : B → FuncHelp.StateT S L C) (s0 : S) (e : L)
    (h : m.run s0 = FuncHelp.Either.left e) :
    (m.flatMap f).run s0 = FuncHelp.Either.left e ∧
    ((m.flatMap f).flatMap g).run s0 = FuncHelp.Either.left e := by
  have hm : m.runStateT s0 = FuncHelp.Either.left e := h
  constructor <;>
    simp [FuncHelp.StateT.run, FuncHelp.StateT.flatMap, hm, FuncHelp.Either.flatMap]

/-- Witness for C3 at a concrete input: the failing step
`StateT.lift (Either.left "boom")` over state `0`, chained with two
further steps, returns `left "boom"`. -/
theorem C3_stateT_failure_forwarding_witness :
    ((FuncHelp.StateT.lift (S := Nat) (FuncHelp.Either.left (R := Nat) "boom")).flatMap
        (fun a => FuncHelp.StateT.of a)).run 0 = FuncHelp.Either.left "boom" ∧
    (((FuncHelp.StateT.lift (S := Nat) (FuncHelp.Either.left (R := Nat) "boom")).flatMap
        (fun a => FuncHelp.StateT.of a)).flatMap
        (fun a => FuncHelp.StateT.of (a + 1))).run 0 = FuncHelp.Either.left "boom" :=
  C3_stateT_failure_forwarding
    (FuncHelp.StateT.lift (FuncHelp.Either.left "boom"))
    (fun a => FuncHelp.StateT.of a)
    (fun a => FuncHelp.StateT.of (a + 1)) 0 "boom" rfl

/-- Claim C1: for Either and Except, a container in the failure branch is
returned unchanged by `map` and `flatMap` for every argument function: for
every failure value `e` (a `left` payload for Either, an `Error` instance
for Except) and all functions `f`, `g`, `fE`, `gE`,
`(left e).map f = left e`, `(left e).flatMap g = left e`,
`(failed err).map fE = failed err`, and `(failed err).flatMap gE = failed err`.
The result is independent of the argument function (it is universally
quantified and absent from the right-hand sides), which is the pure
rendering of "the argument function is never invoked". -/
theorem C1_failure_short_circuit {L R B : Type} (e : L)
    (f : R → B) (g : R → FuncHelp.Either L B) (msg : String)
    (fE : FuncHelp.JSVal → FuncHelp.JSVal) (gE : FuncHelp.JSVal → FuncHelp.Except) :
    (FuncHelp.Either.left (R := R) e).map f = FuncHelp.Either.left e ∧
    (FuncHelp.Either.left (R := R) e).flatMap g = FuncHelp.Either.left e ∧
    (FuncHelp.Except.failed (.error msg)).map fE = FuncHelp.Except.failed (.error msg) ∧
    (FuncHelp.Except.failed (.error msg)).flatMap gE = FuncHelp.Except.failed (.error msg) := by
  refine ⟨rfl, rfl, ?_, ?_⟩ <;>
    simp [FuncHelp.Except.failed, FuncHelp.Except.map, FuncHelp.Except.flatMap,
      FuncHelp.instanceOfError]

/-- Counterexample for claim C2: left identity fails for Except when the
lifted value is an instance of the host `Error` type.  With
`v = error "boom"` (a well-typed value for `Except.of<A>` at `A = Error`)
and the well-typed constant function `f = _ => Except.ok(num 1)`,
`Except.of(v).flatMap(f)` keeps the stored error and is observed as the
failure branch, while `f(v)` is the success container `ok (num 1)` — the
two are not equal. -/
theorem C2_left_identity_fails_on_error_value :
    (FuncHelp.Except.of (.error "boom")).flatMap
        (fun _ => FuncHelp.Except.ok (.num 1)) ≠
      (fun _ => FuncHelp.Except.ok (.num 1)) (FuncHelp.JSVal.error "boom") ∧
    ((FuncHelp.Except.of (.error "boom")).flatMap
        (fun _ => FuncHelp.Except.ok (.num 1))).isError = true ∧
    ((fun _ => FuncHelp.Except.ok (.num 1)) (FuncHelp.JSVal.error "boom")).isError =
      false := by
  refine ⟨by decide, by decide, by decide⟩

/-- Claim C2, amended: the monad left-identity law
`of(v).flatMap(f) = f(v)` holds unconditionally for Either, State, IO,
AsyncIO, and StateT (for the stateful/deferred families stated
observationally, i.e. after `run`); for Except it holds for every value
`v` that is not an instance of the host `Error` type — an `Error`-instance
value makes `Except.of(v)` itself a failure container that short-circuits
`flatMap`. -/
theorem C2_left_identity_amended :
    (∀ (L R B : Type) (v : R) (f : R → FuncHelp.Either L B),
      (FuncHelp.Either.of v).flatMap f = f v) ∧
    (∀ (v : FuncHelp.JSVal) (f : FuncHelp.JSVal → FuncHelp.Except),
      FuncHelp.instanceOfError v = false → (FuncHelp.Except.of v).flatMap f = f v) ∧
    (∀ (S A B : Type) (v : A) (f : A → FuncHelp.State S B) (s : S),
      ((FuncHelp.State.of v).flatMap f).run s = (f v).run s) ∧
    (∀ (σ A B : Type) (v : A) (f : A → FuncHelp.IOEff σ B) (w : σ),
      ((FuncHelp.IOEff.of v).flatMap f).run w = (f v).run w) ∧
    (∀ (S L A B : Type) (v : A) (f : A → FuncHelp.StateT S L B) (s : S),
      ((FuncHelp.StateT.of v).flatMap f).run s = (f v).run s) ∧
    (∀ (σ A B : Type) (v : A) (f : A → FuncHelp.AsyncIOEff σ B) (w : σ),
      ((FuncHelp.AsyncIOEff.of v).flatMap f).run w = (f v).run w) := by
  refine ⟨fun L R B v f => rfl, fun v f h => ?_, fun S A B v f s => rfl,
    fun σ A B v f w => rfl, fun S L A B v f s => rfl, fun σ A B v f w => rfl⟩
  simp [FuncHelp.Except.of, FuncHelp.Except.ok, FuncHelp.Except.flatMap, h]

/-- Witness for the amended C2 at a concrete input: left identity for
Except at the non-error value `num 2`. -/
theorem C2_left_identity_amended_witness :
    (FuncHelp.Except.of (.num 2)).flatMap (fun x => FuncHelp.Except.ok x) =
      (fun x => FuncHelp.Except.ok x) (FuncHelp.JSVal.num 2) :=
  C2_left_identity_amended.2.1 (.num 2) (fun x => FuncHelp.Except.ok x) (by decide)

/-- Counterexample for claim C7: when the effect raises the non-`Error`
fault `str "boom"` (JavaScript permits throwing any value) and no
`onError` is supplied, `Except.tryCatch` stores the raw fault, but the
resulting container is *not* the failure branch: `isError()` is `false`
and `isOk()` is `true`, contradicting "the result is the failure branch
containing the raw fault e". -/
theorem C7_trycatch_raw_fault_not_failure_branch :
    (FuncHelp.Except.tryCatch (.inl (.str "boom")) none).value = .str "boom" ∧
    (FuncHelp.Except.tryCatch (.inl (.str "boom")) none).isError = false ∧
    (FuncHelp.Except.tryCatch (.inl (.str "boom")) none).isOk = true := by
  refine ⟨by decide, by decide, by decide⟩

/-- Claim C7, amended: `tryCatch(effect, onError?)` executes the effect
and never propagates a caught fault.  For Either: a normal return `r`
yields the success branch `right r`; a raised fault `e` yields the failure
branch `left (onError e)`, or `left e` when no handler is supplied.  For
Except: a normal return `r` yields the container storing `r` and a caught
fault yields the container storing `onError e` (or the raw `e`); such a
container is observed as the failure branch exactly when the stored value
is an instance of `Error` — in particular always when the supplied
`onError` returns an `Error` instance (its declared TypeScript return
type), but not for a non-`Error` raw fault without a handler. -/
theorem C7_trycatch_amended :
    (∀ (r : FuncHelp.JSVal) (onE : Option (FuncHelp.JSVal → FuncHelp.JSVal)),
      FuncHelp.Either.tryCatch (.inr r) onE = FuncHelp.Either.right r) ∧
    (∀ (e : FuncHelp.JSVal) (h : FuncHelp.JSVal → FuncHelp.JSVal),
      FuncHelp.Either.tryCatch (.inl e) (some h) = FuncHelp.Either.left (h e)) ∧
    (∀ (e : FuncHelp.JSVal),
      FuncHelp.Either.tryCatch (.inl e) none = FuncHelp.Either.left e) ∧
    (∀ (r : FuncHelp.JSVal) (onE : Option (FuncHelp.JSVal → FuncHelp.JSVal)),
      FuncHelp.Except.tryCatch (.inr r) onE = FuncHelp.Except.ok r) ∧
    (∀ (e : FuncHelp.JSVal) (h : FuncHelp.JSVal → FuncHelp.JSVal),
      FuncHelp.Except.tryCatch (.inl e) (some h) = FuncHelp.Except.failed (h e)) ∧
    (∀ (e : FuncHelp.JSVal),
      FuncHelp.Except.tryCatch (.inl e) none = FuncHelp.Except.failed e) ∧
    (∀ (v : FuncHelp.JSVal),
      (FuncHelp.Except.ok v).isError = FuncHelp.instanceOfError v) ∧
    (∀ (e : FuncHelp.JSVal) (h : FuncHelp.JSVal → FuncHelp.JSVal),
      FuncHelp.instanceOfError (h e) = true →
        (FuncHelp.Except.tryCatch (.inl e) (some h)).isError = true) := by
  refine ⟨fun r onE => rfl, fun e h => rfl, fun e => rfl, fun r onE => rfl,
    fun e h => rfl, fun e => rfl, fun v => rfl, fun e h hh => ?_⟩
  simp [FuncHelp.Except.tryCatch, FuncHelp.Except.failed, FuncHelp.Except.isError, hh]

/-- Witness for the amended C7 at a concrete input: an `Error`-returning
handler makes the caught fault the failure branch. -/
theorem C7_trycatch_amended_witness :
    (FuncHelp.Except.tryCatch (.inl (.str "boom"))
      (some (fun _ => .error "wrapped"))).isError = true :=
  C7_trycatch_amended.2.2.2.2.2.2.2 (.str "boom") (fun _ => .error "wrapped")
    (by decide)

/-- Claim C9: for every `Error`-instance value (`error msg`),
`Except.ok (error msg)` — and equally `Except.of`, which is defined as
`ok` — is observed as a failure at the public interface: `isOk` is
`false`, `isError` is `true`, `fold` invokes the error handler with the
stored value, and `map`/`flatMap` return the container unchanged for every
argument function (the argument is universally quantified and absent from
the right-hand sides, so it is never invoked).  The branch is recomputed
from the stored value by the `instanceof` test; the embedding's `Except`
carries no construction-time tag at all. -/
theorem C9_except_ok_error_observed_as_failure {B : Type} (msg : String)
    (f : FuncHelp.JSVal → FuncHelp.JSVal) (g : FuncHelp.JSVal → FuncHelp.Except)
    (onErr onSuc : FuncHelp.JSVal → B) :
    FuncHelp.Except.of (.error msg) = FuncHelp.Except.ok (.error msg) ∧
    (FuncHelp.Except.ok (.error msg)).isOk = false ∧
    (FuncHelp.Except.ok (.error msg)).isError = true ∧
    (FuncHelp.Except.ok (.error msg)).fold onErr onSuc = onErr (.error msg) ∧
    (FuncHelp.Except.ok (.error msg)).map f = FuncHelp.Except.ok (.error msg) ∧
    (FuncHelp.Except.ok (.error msg)).flatMap g = FuncHelp.Except.ok (.error msg) := by
  refine ⟨rfl, rfl, rfl, ?_, ?_, ?_⟩ <;>
    simp [FuncHelp.Except.ok, FuncHelp.Except.fold, FuncHelp.Except.map,
      FuncHelp.Except.flatMap, FuncHelp.instanceOfError]

/-- Claim C10: `Do.run` over the IO family captures a single generator
iterator shared across all `run()` calls of the composed IO.  For the
two-yield producer `a = yield IO.of(1); b = yield IO.of(2); return a + b`,
the first `run()` drives the shared iterator to exhaustion and returns
`3`; a second `run()` on the very same composed IO resumes the exhausted
iterator, which immediately reports `done` with value `undefined`, so it
returns `undefined` instead of re-executing the yielded steps — the two
`run()` calls return different results. -/
theorem C10_do_io_second_run_differs :
    (FuncHelp.doRunShared.1.run FuncHelp.doRunShared.2).1 = some 3 ∧
    (FuncHelp.doRunShared.1.run
      (FuncHelp.doRunShared.1.run FuncHelp.doRunShared.2).2).1 = none ∧
    (FuncHelp.doRunShared.1.run FuncHelp.doRunShared.2).1 ≠
      (FuncHelp.doRunShared.1.run
        (FuncHelp.doRunShared.1.run FuncHelp.doRunShared.2).2).1 := by
  refine ⟨by decide, by decide, by decide⟩
